import Mathlib

/-!
Verification development for `gfix` (src/gfix/main.py), a tool that repairs
gene symbols that spreadsheet software silently converted into dates.

Python strings are modelled as lists of characters (`PyStr`); the dynamic
cell values read from a workbook are modelled by the tagged union `Cell`.
The scope of the model is ASCII text (the inputs the tool is designed for);
Unicode-only behaviours of `str.upper`, `str.isdigit` and `str.strip` are
out of scope and noted at the relevant definitions.
-/

/-- A Python string, modelled as its list of characters. -/
abbrev PyStr := List Char

/-- Embed a Lean string literal as a `PyStr`. -/
def pyS (s : String) : PyStr := s.data

/-- The ten ASCII digit characters (the scope of `str.isdigit` modelled here). -/
def digitChars : PyStr := pyS "0123456789"

/-- ASCII digit test, the character-level model of Python digit checks. -/
def pyIsDigitChar (c : Char) : Bool := digitChars.contains c

/-- The ASCII letters, used to model tokenisation in the fallback parser. -/
def lowerChars : PyStr := pyS "abcdefghijklmnopqrstuvwxyz"

/-- Upper-case ASCII letters. -/
def upperChars : PyStr := pyS "ABCDEFGHIJKLMNOPQRSTUVWXYZ"

/-- ASCII letter test. -/
def pyIsAlphaChar (c : Char) : Bool := lowerChars.contains c || upperChars.contains c

/-- ASCII model of Python's `str.upper` on a single character. -/
def pyToUpper (c : Char) : Char := ((lowerChars.zip upperChars).lookup c).getD c

/-- The whitespace characters stripped by Python's `str.strip()` (ASCII set). -/
def pyIsSpaceChar (c : Char) : Bool := (pyS " \t\n\r").contains c || c = Char.ofNat 11 || c = Char.ofNat 12

/-- Model of Python's `str.strip()`: drop leading and trailing whitespace. -/
def pyStrip (l : PyStr) : PyStr :=
  ((l.dropWhile pyIsSpaceChar).reverse.dropWhile pyIsSpaceChar).reverse

/-- Model of Python's `str.isdigit()` (ASCII scope): non-empty and all digits. -/
def pyIsdigit (l : PyStr) : Bool := !l.isEmpty && l.all pyIsDigitChar

/-- `x.replace(".", "").replace("-", "")` from line 64 of main.py: remove every
`'.'` and every `'-'` character. -/
def stripDotsDashes (l : PyStr) : PyStr :=
  (l.filter (fun c => c != '.')).filter (fun c => c != '-')

/-- `x.upper().startswith("ST")` from line 60 of main.py. -/
def pyStartsWithST : PyStr → Bool
  | a :: b :: _ => pyToUpper a == 'S' && pyToUpper b == 'T'
  | _ => false

/-- Numeric value of an ASCII digit character. -/
def digitVal (c : Char) : Nat := c.toNat - 48

/-- Numeric value of a digit string (most significant digit first). -/
def digitsToNat (l : PyStr) : Nat := l.foldl (fun a c => a * 10 + digitVal c) 0

/-- Strip one leading sign character, as Python's float syntax allows. -/
def stripSign : PyStr → PyStr
  | [] => []
  | c :: r => if c = '+' ∨ c = '-' then r else c :: r

/-- The special float spellings `inf`, `infinity` and `nan` accepted by
Python's `float()` (case-insensitive, after the optional sign). -/
def isInfNan (l : PyStr) : Bool :=
  let u := l.map pyToUpper
  u == pyS "INF" || u == pyS "INFINITY" || u == pyS "NAN"

/-- Split a float body at the first exponent marker `e`/`E`, returning the
mantissa part and, when present, the text after the marker. -/
def splitAtExp : PyStr → PyStr × Option PyStr
  | [] => ([], none)
  | c :: r =>
    if c = 'e' ∨ c = 'E' then ([], some r)
    else
      let p := splitAtExp r
      (c :: p.1, p.2)

/-- A valid float mantissa: digits with at most one `'.'`, at least one digit. -/
def validMantissa (m : PyStr) : Bool :=
  m.all (fun c => pyIsDigitChar c || c == '.') && m.any pyIsDigitChar &&
    (m.filter (fun c => c == '.')).length ≤ 1

/-- A valid float exponent: an optional sign then at least one digit. -/
def validExp (e : PyStr) : Bool :=
  let e' := stripSign e
  !e'.isEmpty && e'.all pyIsDigitChar

/-- Whether a syntactically valid mantissa denotes a nonzero number. -/
def mantissaTruthy (m : PyStr) : Bool := m.any (fun c => pyIsDigitChar c && c != '0')

/-- Model of Python's `float(x)` on a string, as used in the truthiness test of
line 49 of main.py: `none` models a `ValueError`; `some b` models success with
`b` the truth value of the result (`False` exactly for zero).  `float()` strips
surrounding whitespace itself.  Two deliberate simplifications, each noted
because the classifier ends up rejecting the affected strings through a later
guard either way: PEP 515 underscore separators are not modelled, and
truthiness is taken as "some mantissa digit is nonzero", ignoring the IEEE
underflow of tiny exponents such as `"1e-999"`. -/
def pyFloatParse (s : PyStr) : Option Bool :=
  let t := pyStrip s
  let b := stripSign t
  if isInfNan b then some true
  else
    let p := splitAtExp b
    if validMantissa p.1 && (match p.2 with
        | none => true
        | some e => validExp e) then
      some (mantissaTruthy p.1)
    else none

/-- A canonical date, the `(year, month, day)` triple carried by the
`datetime`/`Timestamp` values of main.py. -/
structure CanonicalDate where
  year : Nat
  month : Nat
  day : Nat
deriving DecidableEq, Repr

/-- Gregorian leap-year rule, as validated by `datetime`/`strptime`. -/
def isLeapYear (y : Nat) : Bool := y % 4 == 0 && (y % 100 != 0 || y % 400 == 0)

/-- Days in a month, as validated by `datetime`/`strptime`. -/
def daysInMonth (y m : Nat) : Nat :=
  if m = 2 then (if isLeapYear y then 29 else 28)
  else if m = 4 ∨ m = 6 ∨ m = 9 ∨ m = 11 then 30
  else 31

/-- Split a character list on a separator character; like Python's
`str.split(sep)`, the separators themselves are dropped and empty parts are
kept, so the parts joined with the separator reproduce the input. -/
def splitOnChar (sep : Char) : PyStr → List PyStr
  | [] => [[]]
  | a :: rest =>
    let r := splitOnChar sep rest
    if a = sep then [] :: r
    else
      match r with
      | h :: t => (a :: h) :: t
      | [] => [[a]]

/-- A `%Y` component: exactly four digits, and `datetime` requires year ≥ 1. -/
def isYearTok (l : PyStr) : Bool :=
  l.length == 4 && l.all pyIsDigitChar && digitsToNat l ≥ 1

/-- A `%m` component: one or two digits with value 1–12 (the alternatives of
CPython's strptime regex `1[0-2]|0[1-9]|[1-9]`). -/
def isMonthTok (l : PyStr) : Bool :=
  !l.isEmpty && l.length ≤ 2 && l.all pyIsDigitChar &&
    1 ≤ digitsToNat l && digitsToNat l ≤ 12

/-- A `%d` component: one or two digits with value 1–31 (the alternatives of
CPython's strptime regex `3[01]|[12]\d|0[1-9]|[1-9]`). -/
def isDayTok (l : PyStr) : Bool :=
  !l.isEmpty && l.length ≤ 2 && l.all pyIsDigitChar &&
    1 ≤ digitsToNat l && digitsToNat l ≤ 31

/-- The component order of one of the explicit date templates of line 68. -/
inductive FieldOrder where
  | ymd
  | mdy
  | dmy
deriving DecidableEq, Repr

/-- Model of `pd.to_datetime(x, format=fmt)` for the explicit separator-based
templates of line 68 of main.py (`strptime` semantics, exact whole-string
match): the string must split on the separator into exactly three components,
each matching its field's regex alternatives, and the resulting date must be a
valid calendar date (otherwise `datetime` raises `ValueError`).  The
nanosecond `Timestamp` range restriction (years ≈1677–2262) is not modelled:
every claim here either concerns rejection or an in-range concrete date, and
an out-of-range parse only turns a success into one more rejection. -/
def mkDate3 (ys ms ds : PyStr) : Option CanonicalDate :=
  if isYearTok ys && isMonthTok ms && isDayTok ds then
    if digitsToNat ds ≤ daysInMonth (digitsToNat ys) (digitsToNat ms) then
      some ⟨digitsToNat ys, digitsToNat ms, digitsToNat ds⟩
    else none
  else none

/-- See `mkDate3`: components are assigned to fields by the template's order. -/
def pyStrptime3 (sep : Char) (ord : FieldOrder) (x : PyStr) : Option CanonicalDate :=
  match splitOnChar sep x with
  | [a, b, c] =>
    match ord with
    | .ymd => mkDate3 a b c
    | .mdy => mkDate3 c a b
    | .dmy => mkDate3 c b a
  | _ => none

/-- The ordered template list `["%Y-%m-%d", "%m/%d/%Y", "%d-%m-%Y", "%Y/%m/%d"]`
of line 68 of main.py. -/
def pythonFormats : List (Char × FieldOrder) :=
  [('-', .ymd), ('/', .mdy), ('-', .dmy), ('/', .ymd)]

/-- The two slash-separated templates of that list, in their original order. -/
def slashFormats : List (Char × FieldOrder) :=
  [('/', .mdy), ('/', .ymd)]

/-- The `for fmt in [...]` loop of lines 68–77 of main.py: try each template in
order; on the first success, collapse any June date to the sentinel
`datetime(2000, 6, 1)`; a `ValueError` (modelled as `none`) moves to the next
template. -/
def tryFormatsWith (fmts : List (Char × FieldOrder)) (t : PyStr) : Option CanonicalDate :=
  match fmts with
  | [] => none
  | (sep, ord) :: rest =>
    match pyStrptime3 sep ord t with
    | some dt => some (if dt.month == 6 then ⟨2000, 6, 1⟩ else dt)
    | none => tryFormatsWith rest t

/-- The twelve three-letter month abbreviations recognised by the permissive
fallback parser, with their month numbers. -/
def monthNames : List (PyStr × Nat) :=
  [(pyS "JAN", 1), (pyS "FEB", 2), (pyS "MAR", 3), (pyS "APR", 4),
   (pyS "MAY", 5), (pyS "JUN", 6), (pyS "JUL", 7), (pyS "AUG", 8),
   (pyS "SEP", 9), (pyS "OCT", 10), (pyS "NOV", 11), (pyS "DEC", 12)]

/-- Case-insensitive lookup of a three-letter month abbreviation. -/
def monthAbbrevIndex (l : PyStr) : Option Nat := monthNames.lookup (l.map pyToUpper)

/-- The `dateutil` two-digit-year convention for a number it reads into the
year slot: `99` means 1999.  In `dateutil` the century is chosen to land
within fifty years of the run date; the fixed rule used here is a
run-date-independent approximation, and no theorem depends on the converted
value (the formatter only ever emits two-digit numbers at most 31, which the
parser reads as days, not years). -/
def dateutilConvertYear (yy : Nat) : Nat := if yy < 50 then 2000 + yy else 1900 + yy

/-- Modelled from the spec: the "generic flexible date parser ... used only as
a last-resort fallback inside the Classifier" — `pd.to_datetime(x,
errors="coerce")` of line 82 of main.py, an external collaborator whose code
is not part of this repository (pandas delegates to `dateutil`, passing
`datetime(1, 1, 1)` as the default that fills unspecified fields).  Captured
behaviour, after the classifier has already stripped the string: a leading
maximal run of ASCII letters that spells a three-letter month abbreviation
(any letter case), followed by `'-'` and exactly two digits, is read as a
month plus one number; a number at most 31 goes to the day slot and the year
comes from the default — year 1, outside the nanosecond `Timestamp` range, so
the coercion yields `NaT` (`none`); a two-digit number larger than 31 cannot
be a day and is read as a two-digit year (e.g. `"JUL-99"` parses as
1999-07-01) with the day filled from the default (day 1).  A bare month
abbreviation likewise gets the default year 1 and is coerced to `NaT`.  Every
other string is modelled as a parse failure (`NaT`); in particular every code
the Gene Code Formatter can emit (`JUN`, or a month abbreviation with a
zero-padded day at most 31) and every mapped gene symbol fails to re-parse.
Strings whose first character is not an ASCII letter are genuinely rejected
by the real parser in every case this development relies on; richer
`dateutil` behaviours (full month names, day-first readings, embedded times)
never arise here. -/
def pdToDatetimeCoerce (t : PyStr) : Option CanonicalDate :=
  match monthAbbrevIndex (t.takeWhile pyIsAlphaChar) with
  | none => none
  | some m =>
    match t.dropWhile pyIsAlphaChar with
    | [] => none
    | '-' :: d1 :: d2 :: [] =>
      if pyIsDigitChar d1 && pyIsDigitChar d2 then
        if digitVal d1 * 10 + digitVal d2 ≤ 31 then none
        else some ⟨dateutilConvertYear (digitVal d1 * 10 + digitVal d2), m, 1⟩
      else none
    | _ => none

/-- A workbook cell value as read by pandas — the dynamic value `x` of
`try_convert_to_datetime`.  `na` models values for which `pd.isna` holds
(`None`, float `NaN`, `NaT`); `num` models finite `int`/`float` values (the
code inspects only the type of a native number, via `isinstance`, never its
value, so no payload is carried); `str` carries the text; `date` models
values that are already `datetime`/`Timestamp` instances. -/
inductive Cell where
  | na
  | num
  | str (s : PyStr)
  | date (d : CanonicalDate)
deriving DecidableEq, Repr

/-- `try_convert_to_datetime` (lines 38–91 of main.py), parameterised by the
explicit template list so that the dead-template claim can compare instances:
already-`datetime` values are returned unchanged; native numbers, truthy
float-strings, `"ST"`-prefixed strings and numeric-looking strings (all
digits after removing `'.'` and `'-'`) are rejected; then the explicit
templates are tried in order and finally the permissive fallback, with any
June result collapsed to `datetime(2000, 6, 1)`. -/
def tryConvertWithFormats (fmts : List (Char × FieldOrder)) (x : Cell) : Option CanonicalDate :=
  match x with
  | .date d => some d
  | .num => none
  | .na => none
  | .str s =>
    match pyFloatParse s with
    | some true => none
    | _ =>
      let t := pyStrip s
      if pyStartsWithST t then none
      else if pyIsdigit (stripDotsDashes t) then none
      else
        match tryFormatsWith fmts t with
        | some dt => some dt
        | none =>
          match pdToDatetimeCoerce t with
          | none => none
          | some r => some (if r.month == 6 then ⟨2000, 6, 1⟩ else r)

/-- `try_convert_to_datetime` with its actual template list. -/
def tryConvertToDatetime : Cell → Option CanonicalDate :=
  tryConvertWithFormats pythonFormats

/-- The classifier as it would behave with the two dash templates removed. -/
def tryConvertSlashOnly : Cell → Option CanonicalDate :=
  tryConvertWithFormats slashFormats

/-- The `month_map` dictionary of `format_datetime_to_gene` (lines 14–27).
Months outside 1–12 would raise `KeyError` in Python; they never reach the
formatter in this development, and the catch-all returns the empty string. -/
def monthMap (m : Nat) : PyStr :=
  (match m with
   | 1 => "JAN" | 2 => "FEB" | 3 => "MAR" | 4 => "APR"
   | 5 => "MAY" | 6 => "JUN" | 7 => "JUL" | 8 => "AUG"
   | 9 => "SEP" | 10 => "OCT" | 11 => "NOV" | 12 => "DEC"
   | _ => "").data

/-- `str(day).zfill(2)`: the decimal digits of the day, left-padded with `'0'`
to at least two characters. -/
def zfill2 (n : Nat) : PyStr :=
  let s := Nat.toDigits 10 n
  if s.length < 2 then '0' :: s else s

/-- `format_datetime_to_gene` (lines 9–35 of main.py): any June date gives the
bare code `JUN`; otherwise the three-letter month abbreviation, a dash, and
the zero-padded day. -/
def format_datetime_to_gene (dt : CanonicalDate) : PyStr :=
  if dt.month == 6 then pyS "JUN"
  else monthMap dt.month ++ ('-' :: zfill2 dt.day)

/-- `load_reference_data` (lines 94–132 of main.py), the static date-code →
HGNC-symbol dictionary, as an association list (its keys are distinct, so
lookup order is immaterial and matches Python `dict` lookup). -/
def load_reference_data : List (PyStr × PyStr) :=
  [(pyS "MAR-01", pyS "MARCHF1"),
   (pyS "MAR-12", pyS "MARCHF1"),
   (pyS "MAR-13", pyS "MARCHF1"),
   (pyS "MAR-14", pyS "MARCHF1"),
   (pyS "MAR-15", pyS "MARCHF1"),
   (pyS "MAR-16", pyS "MARCHF1"),
   (pyS "MAR-02", pyS "MARCHF2"),
   (pyS "MAR-03", pyS "MARCHF3"),
   (pyS "MAR-31", pyS "MARCHF3"),
   (pyS "MAR-04", pyS "MARCHF4"),
   (pyS "MAR-05", pyS "MARCHF5"),
   (pyS "MAR-06", pyS "MARCHF6"),
   (pyS "MAR-07", pyS "MARCHF7"),
   (pyS "MAR-08", pyS "MARCHF8"),
   (pyS "MAR-09", pyS "MARCHF9"),
   (pyS "MAR-10", pyS "MARCHF10"),
   (pyS "MAR-11", pyS "MARCHF11"),
   (pyS "SEP-01", pyS "SEPTIN1"),
   (pyS "SEP-02", pyS "SEPTIN2"),
   (pyS "SEP-03", pyS "SEPTIN3"),
   (pyS "SEP-04", pyS "SEPTIN4"),
   (pyS "SEP-05", pyS "SEPTIN5"),
   (pyS "SEP-06", pyS "SEPTIN6"),
   (pyS "SEP-07", pyS "SEPTIN7"),
   (pyS "SEP-08", pyS "SEPTIN8"),
   (pyS "SEP-09", pyS "SEPTIN9"),
   (pyS "SEP-10", pyS "SEPTIN10"),
   (pyS "SEP-11", pyS "SEPTIN11"),
   (pyS "SEP-12", pyS "SEPTIN12"),
   (pyS "SEP-13", pyS "SEPTIN7P2"),
   (pyS "SEP-14", pyS "SEPTIN14"),
   (pyS "SEP-15", pyS "SELENOF"),
   (pyS "DEC-01", pyS "DELEC1")]

/-- The Reference Resolver of lines 148–150 of main.py: exact lookup in the
reference map, returning the code itself when absent. -/
def resolveCode (code : PyStr) : PyStr :=
  (load_reference_data.lookup code).getD code

/-- `pd.isna` on a cell value: true exactly for the `na` tag. -/
def pdIsna : Cell → Bool
  | .na => true
  | _ => false

/-- `process_cell_value` (lines 135–152 of main.py): missing values pass
through; classified dates are formatted and resolved through the reference
map, reported as changed; everything else passes through unchanged. -/
def process_cell_value (value : Cell) (gene_map : List (PyStr × PyStr)) : Cell × Bool :=
  if pdIsna value then (value, false)
  else
    match tryConvertToDatetime value with
    | some dt =>
      let date_format := format_datetime_to_gene dt
      match gene_map.lookup date_format with
      | some sym => (.str sym, true)
      | none => (.str date_format, true)
    | none => (value, false)

/-- A sheet: its header row of column values and its 2D grid of cells (pandas
DataFrames are rectangular: every row has one cell per column). -/
structure SheetData where
  header : List Cell
  rows : List (List Cell)
deriving DecidableEq, Repr

/-- The location descriptor of a change record: `Column header {i}`, or
`Row {i}, Column {j} ({name})` where `name` is the already-updated header. -/
inductive CellLoc where
  | header (i : Nat)
  | cell (i j : Nat) (colName : Cell)
deriving DecidableEq, Repr

/-- One entry of the change log built by `scan_and_fix_excel` (the console
string formatting of the log is not modelled; the record keeps the data the
strings are built from). -/
structure ChangeRecord where
  sheet : String
  loc : CellLoc
  oldValue : Cell
  newValue : Cell
deriving DecidableEq, Repr

/-- The column-header pass of `scan_and_fix_excel` (lines 176–188): process
each header value, recording a change at `Column header i` when classified. -/
def processHeaderRow (sheet : String) (gene_map : List (PyStr × PyStr))
    (hs : List Cell) : List Cell × List ChangeRecord :=
  (hs.map (fun c => (process_cell_value c gene_map).1),
   hs.enum.filterMap (fun p =>
     let r := process_cell_value p.2 gene_map
     if r.2 then some ⟨sheet, .header p.1, p.2, r.1⟩ else none))

/-- The per-sheet body of `scan_and_fix_excel` (lines 171–212): headers first,
then every cell in row-major order; changed cells are written into the copied
frame, and each change record's column name is the already-updated header. -/
def processSheet (sheet : String) (gene_map : List (PyStr × PyStr))
    (s : SheetData) : SheetData × List ChangeRecord :=
  let hp := processHeaderRow sheet gene_map s.header
  let newRows := s.rows.map (fun row => row.map (fun c => (process_cell_value c gene_map).1))
  let cellRecs := s.rows.enum.flatMap (fun pi =>
    pi.2.enum.filterMap (fun pj =>
      let r := process_cell_value pj.2 gene_map
      if r.2 then some ⟨sheet, .cell pi.1 pj.1 (hp.1.getD pj.1 .na), pj.2, r.1⟩
      else none))
  (⟨hp.1, newRows⟩, hp.2 ++ cellRecs)

/-- `scan_and_fix_excel` (lines 155–235 of main.py) with the file I/O and
console printing stripped away: the workbook is the ordered list of named
sheets the Excel reader produces, and the result is the processed workbook
together with `all_changes`; the Python function returns
`len(all_changes)`, the second component's length here. -/
def scan_and_fix_excel (wb : List (String × SheetData)) :
    List (String × SheetData) × List ChangeRecord :=
  (wb.map (fun p => (p.1, (processSheet p.1 load_reference_data p.2).1)),
   wb.flatMap (fun p => (processSheet p.1 load_reference_data p.2).2))

/-- The exception kinds relevant to the classifier: `valueError` is raised by
`float()` and by the template parses; `typeError` may come from the fallback;
`otherError` stands for any exception class the `except` clauses of
`try_convert_to_datetime` do not name, and would propagate. -/
inductive PyErr where
  | valueError
  | typeError
  | otherError
deriving DecidableEq, Repr

/-- `float(x)` with its exception made explicit: invalid syntax raises
`ValueError`. -/
def pyFloatE (s : PyStr) : Except PyErr Bool :=
  match pyFloatParse s with
  | some b => .ok b
  | none => .error .valueError

/-- `pd.to_datetime(x, format=fmt)` with its exception made explicit: a failed
match raises `ValueError` (the pandas out-of-bounds error subclasses it). -/
def pyStrptime3E (sep : Char) (ord : FieldOrder) (x : PyStr) : Except PyErr CanonicalDate :=
  match pyStrptime3 sep ord x with
  | some d => .ok d
  | none => .error .valueError

/-- The template loop of lines 68–77 with exceptions explicit: the
`except ValueError: continue` clause moves to the next template; any other
exception would propagate. -/
def tryFormatsWithE (fmts : List (Char × FieldOrder)) (t : PyStr) :
    Except PyErr (Option CanonicalDate) :=
  match fmts with
  | [] => .ok none
  | (sep, ord) :: rest =>
    match pyStrptime3E sep ord t with
    | .ok dt => .ok (some (if dt.month == 6 then ⟨2000, 6, 1⟩ else dt))
    | .error .valueError => tryFormatsWithE rest t
    | .error e => .error e

/-- `pd.to_datetime(x, errors="coerce")` does not raise in the behaviours
modelled here; parse failures come back as `NaT` (`none`). -/
def pdToDatetimeCoerceE (t : PyStr) : Except PyErr (Option CanonicalDate) :=
  .ok (pdToDatetimeCoerce t)

/-- `try_convert_to_datetime` with every `try`/`except` of lines 38–91 made
explicit in an exception monad: the `except ValueError: pass` around the
float test, the `except ValueError: continue` in the template loop, and the
final `except (ValueError, TypeError): return None` around the fallback.
A `.error` result models an exception propagating out of the function. -/
def tryConvertToDatetimeE (x : Cell) : Except PyErr (Option CanonicalDate) :=
  match x with
  | .date d => .ok (some d)
  | _ =>
    let floatGuard : Except PyErr Bool :=
      match x with
      | .num => .ok true
      | .str s =>
        match pyFloatE s with
        | .ok b => .ok b
        | .error .valueError => .ok false
        | .error e => .error e
      | _ => .ok false
    match floatGuard with
    | .error e => .error e
    | .ok true => .ok none
    | .ok false =>
      match x with
      | .str s =>
        let t := pyStrip s
        if pyStartsWithST t then .ok none
        else if pyIsdigit (stripDotsDashes t) then .ok none
        else
          match tryFormatsWithE pythonFormats t with
          | .error e => .error e
          | .ok (some dt) => .ok (some dt)
          | .ok none =>
            match pdToDatetimeCoerceE t with
            | .ok none => .ok none
            | .ok (some r) => .ok (some (if r.month == 6 then ⟨2000, 6, 1⟩ else r))
            | .error .valueError => .ok none
            | .error .typeError => .ok none
            | .error e => .error e
      | _ => .ok none

/-- Zero-pad a number below 100 to two characters, for spelling the claimed
reference-map keys. -/
def padNum2 (k : Nat) : String :=
  if k < 10 then "0" ++ toString k else toString k

/-- The reference map exactly as claim C4 words it: `MAR-01` and `MAR-12`
through `MAR-16` to `MARCHF1`; `MAR-02` to `MARCHF2`; `MAR-03` and `MAR-31`
to `MARCHF3`; `MAR-04` through `MAR-11` to `MARCHF4` through `MARCHF11`
respectively; `SEP-01` through `SEP-12` to `SEPTIN1` through `SEPTIN12`
respectively; `SEP-13` to `SEPTIN7P2`; `SEP-14` to `SEPTIN14`; `SEP-15` to
`SELENOF`; `DEC-01` to `DELEC1`. -/
def claimedEntries : List (PyStr × PyStr) :=
  [(pyS "MAR-01", pyS "MARCHF1")]
  ++ (List.range' 12 5).map (fun k => (pyS ("MAR-" ++ toString k), pyS "MARCHF1"))
  ++ [(pyS "MAR-02", pyS "MARCHF2"), (pyS "MAR-03", pyS "MARCHF3"),
      (pyS "MAR-31", pyS "MARCHF3")]
  ++ (List.range' 4 8).map (fun k => (pyS ("MAR-" ++ padNum2 k), pyS ("MARCHF" ++ toString k)))
  ++ (List.range' 1 12).map (fun k => (pyS ("SEP-" ++ padNum2 k), pyS ("SEPTIN" ++ toString k)))
  ++ [(pyS "SEP-13", pyS "SEPTIN7P2"), (pyS "SEP-14", pyS "SEPTIN14"),
      (pyS "SEP-15", pyS "SELENOF"), (pyS "DEC-01", pyS "DELEC1")]

/-- A cell whose date payload, if any, is a possible Python `datetime`:
`datetime` days always lie in 1..31, but the `Cell` model does not enforce
this, so idempotence statements assume it for date-typed cells.  All other
cells satisfy it trivially. -/
def validDateCell : Cell → Bool
  | .date d => decide (d.day ≤ 31)
  | _ => true

theorem splitOnChar_ne_nil (sep : Char) (l : PyStr) : splitOnChar sep l ≠ [] := by
  induction l with
  | nil => simp [splitOnChar]
  | cons a rest ih =>
    simp only [splitOnChar]
    split
    · simp
    · cases splitOnChar sep rest <;> simp

theorem mem_of_mem_splitOnChar {sep : Char} {l p : PyStr} {c : Char}
    (hp : p ∈ splitOnChar sep l) (hc : c ∈ p) : c ∈ l := by
  induction l generalizing p with
  | nil =>
    simp only [splitOnChar, List.mem_singleton] at hp
    subst hp
    simp at hc
  | cons a rest ih =>
    simp only [splitOnChar] at hp
    by_cases ha : a = sep
    · rw [if_pos ha] at hp
      rcases List.mem_cons.mp hp with h | h
      · subst h; simp at hc
      · exact List.mem_cons_of_mem _ (ih h hc)
    · rw [if_neg ha] at hp
      cases hs : splitOnChar sep rest with
      | nil => exact absurd hs (splitOnChar_ne_nil sep rest)
      | cons h t =>
        rw [hs] at hp
        rcases List.mem_cons.mp hp with hph | hpt
        · subst hph
          rcases List.mem_cons.mp hc with hca | hch
          · subst hca; exact List.mem_cons_self _ _
          · exact List.mem_cons_of_mem _ (ih (hs ▸ List.mem_cons_self h t) hch)
        · exact List.mem_cons_of_mem _ (ih (hs ▸ List.mem_cons_of_mem h hpt) hc)

theorem mem_splitOnChar_cover {sep : Char} {l : PyStr} {c : Char} (hc : c ∈ l) :
    c = sep ∨ ∃ p ∈ splitOnChar sep l, c ∈ p := by
  induction l with
  | nil => simp at hc
  | cons a rest ih =>
    simp only [splitOnChar]
    by_cases ha : a = sep
    · rw [if_pos ha]
      rcases List.mem_cons.mp hc with h | h
      · subst h; exact Or.inl ha
      · rcases ih h with h' | ⟨p, hp, hcp⟩
        · exact Or.inl h'
        · exact Or.inr ⟨p, List.mem_cons_of_mem _ hp, hcp⟩
    · rw [if_neg ha]
      cases hs : splitOnChar sep rest with
      | nil => exact absurd hs (splitOnChar_ne_nil sep rest)
      | cons h t =>
        rcases List.mem_cons.mp hc with hca | hcr
        · exact Or.inr ⟨a :: h, List.mem_cons_self _ _, by rw [hca]; exact List.mem_cons_self _ _⟩
        · rcases ih hcr with h' | ⟨p, hp, hcp⟩
          · exact Or.inl h'
          · rw [hs] at hp
            rcases List.mem_cons.mp hp with hph | hpt
            · exact Or.inr ⟨a :: h, List.mem_cons_self _ _,
                List.mem_cons_of_mem _ (hph ▸ hcp)⟩
            · exact Or.inr ⟨p, List.mem_cons_of_mem _ hpt, hcp⟩

theorem digitChar_props {c : Char} (h : pyIsDigitChar c = true) :
    c ≠ '.' ∧ c ≠ '-' ∧ c ≠ '/' ∧ c ≠ '+' ∧ c ≠ 'e' ∧ c ≠ 'E' ∧
      pyIsAlphaChar c = false ∧ (pyToUpper c == 'S') = false := by
  have hc : c ∈ digitChars := by
    simpa [pyIsDigitChar, List.contains, List.elem_eq_mem] using h
  have hc2 : c = '0' ∨ c = '1' ∨ c = '2' ∨ c = '3' ∨ c = '4' ∨ c = '5' ∨ c = '6' ∨
      c = '7' ∨ c = '8' ∨ c = '9' := by
    simpa [digitChars, pyS] using hc
  rcases hc2 with rfl | rfl | rfl | rfl | rfl | rfl | rfl | rfl | rfl | rfl <;> exact
    ⟨by decide, by decide, by decide, by decide, by decide, by decide, by decide, by decide⟩

theorem splitAtExp_recon (l : PyStr) :
    ((splitAtExp l).2 = none ∧ (splitAtExp l).1 = l) ∨
      (∃ ch e, (ch = 'e' ∨ ch = 'E') ∧ (splitAtExp l).2 = some e ∧
        l = (splitAtExp l).1 ++ ch :: e) := by
  induction l with
  | nil => left; exact ⟨rfl, rfl⟩
  | cons c r ih =>
    by_cases hc : c = 'e' ∨ c = 'E'
    · right
      exact ⟨c, r, hc, by simp [splitAtExp, hc], by simp [splitAtExp, hc]⟩
    · simp only [splitAtExp, if_neg hc]
      rcases ih with ⟨h2, h1⟩ | ⟨ch, e, hch, h2, h1⟩
      · left; exact ⟨h2, by rw [h1]⟩
      · right
        refine ⟨ch, e, hch, h2, ?_⟩
        conv_lhs => rw [h1]
        rw [List.cons_append]

theorem stripSign_shape (l : PyStr) :
    stripSign l = l ∨ (∃ c r, (c = '+' ∨ c = '-') ∧ l = c :: r ∧ stripSign l = r) := by
  cases l with
  | nil => left; rfl
  | cons c r =>
    by_cases hc : c = '+' ∨ c = '-'
    · right; exact ⟨c, r, hc, rfl, by simp [stripSign, hc]⟩
    · left; simp [stripSign, hc]

theorem mkDate3_inv {ys ms ds : PyStr} {d : CanonicalDate} (h : mkDate3 ys ms ds = some d) :
    isYearTok ys = true ∧ isMonthTok ms = true ∧ isDayTok ds = true ∧
      d = ⟨digitsToNat ys, digitsToNat ms, digitsToNat ds⟩ ∧
      digitsToNat ds ≤ daysInMonth (digitsToNat ys) (digitsToNat ms) := by
  unfold mkDate3 at h
  by_cases h1 : (isYearTok ys && isMonthTok ms && isDayTok ds) = true
  · rw [if_pos h1] at h
    simp only [Bool.and_eq_true] at h1
    by_cases h2 : digitsToNat ds ≤ daysInMonth (digitsToNat ys) (digitsToNat ms)
    · rw [if_pos h2] at h
      exact ⟨h1.1.1, h1.1.2, h1.2, (Option.some.inj h).symm, h2⟩
    · rw [if_neg h2] at h
      exact absurd h (by simp)
  · rw [if_neg h1] at h
    exact absurd h (by simp)

theorem isYearTok_facts {l : PyStr} (h : isYearTok l = true) :
    l ≠ [] ∧ l.all pyIsDigitChar = true := by
  simp only [isYearTok, Bool.and_eq_true, beq_iff_eq] at h
  exact ⟨by intro hn; rw [hn] at h; simp at h, h.1.2⟩

theorem isMonthTok_facts {l : PyStr} (h : isMonthTok l = true) :
    l ≠ [] ∧ l.all pyIsDigitChar = true ∧ 1 ≤ digitsToNat l ∧ digitsToNat l ≤ 12 := by
  simp only [isMonthTok, Bool.and_eq_true] at h
  refine ⟨?_, h.1.1.2, by simpa using h.1.2, by simpa using h.2⟩
  intro hn
  rw [hn] at h
  simp at h

theorem isDayTok_facts {l : PyStr} (h : isDayTok l = true) :
    l ≠ [] ∧ l.all pyIsDigitChar = true := by
  simp only [isDayTok, Bool.and_eq_true] at h
  refine ⟨?_, h.1.1.2⟩
  intro hn
  rw [hn] at h
  simp at h

theorem pyStrptime3_inv {sep : Char} {ord : FieldOrder} {x : PyStr} {d : CanonicalDate}
    (h : pyStrptime3 sep ord x = some d) :
    ∃ a b c, splitOnChar sep x = [a, b, c] ∧
      a ≠ [] ∧ b ≠ [] ∧ c ≠ [] ∧
      a.all pyIsDigitChar = true ∧ b.all pyIsDigitChar = true ∧ c.all pyIsDigitChar = true := by
  unfold pyStrptime3 at h
  cases hs : splitOnChar sep x with
  | nil => rw [hs] at h; exact absurd h (by simp)
  | cons a t1 =>
    cases t1 with
    | nil => rw [hs] at h; exact absurd h (by simp)
    | cons b t2 =>
      cases t2 with
      | nil => rw [hs] at h; exact absurd h (by simp)
      | cons c t3 =>
        cases t3 with
        | nil =>
          rw [hs] at h
          refine ⟨a, b, c, rfl, ?_⟩
          cases ord with
          | ymd =>
            obtain ⟨h1, h2, h3, _, _⟩ := mkDate3_inv h
            obtain ⟨ha1, ha2⟩ := isYearTok_facts h1
            obtain ⟨hb1, hb2, _, _⟩ := isMonthTok_facts h2
            obtain ⟨hc1, hc2⟩ := isDayTok_facts h3
            exact ⟨ha1, hb1, hc1, ha2, hb2, hc2⟩
          | mdy =>
            obtain ⟨h1, h2, h3, _, _⟩ := mkDate3_inv h
            obtain ⟨hc1, hc2⟩ := isYearTok_facts h1
            obtain ⟨ha1, ha2, _, _⟩ := isMonthTok_facts h2
            obtain ⟨hb1, hb2⟩ := isDayTok_facts h3
            exact ⟨ha1, hb1, hc1, ha2, hb2, hc2⟩
          | dmy =>
            obtain ⟨h1, h2, h3, _, _⟩ := mkDate3_inv h
            obtain ⟨hc1, hc2⟩ := isYearTok_facts h1
            obtain ⟨hb1, hb2, _, _⟩ := isMonthTok_facts h2
            obtain ⟨ha1, ha2⟩ := isDayTok_facts h3
            exact ⟨ha1, hb1, hc1, ha2, hb2, hc2⟩
        | cons d4 t4 => rw [hs] at h; exact absurd h (by simp)

theorem pyStrptime3_chars {sep : Char} {ord : FieldOrder} {x : PyStr} {d : CanonicalDate}
    (h : pyStrptime3 sep ord x = some d) :
    ∀ c ∈ x, pyIsDigitChar c = true ∨ c = sep := by
  obtain ⟨a, b, c, hs, _, _, _, ha, hb, hc⟩ := pyStrptime3_inv h
  intro ch hch
  rcases @mem_splitOnChar_cover sep x ch hch with hsep | ⟨p, hp, hchp⟩
  · exact Or.inr hsep
  · rw [hs] at hp
    left
    rcases List.mem_cons.mp hp with rfl | hp2
    · exact List.all_eq_true.mp ha ch hchp
    · rcases List.mem_cons.mp hp2 with rfl | hp3
      · exact List.all_eq_true.mp hb ch hchp
      · rcases List.mem_cons.mp hp3 with rfl | hp4
        · exact List.all_eq_true.mp hc ch hchp
        · simp at hp4

theorem pyStrptime3_guard {ord : FieldOrder} {x : PyStr} {d : CanonicalDate}
    (h : pyStrptime3 '-' ord x = some d) :
    pyIsdigit (stripDotsDashes x) = true := by
  have hchars := pyStrptime3_chars h
  obtain ⟨a, b, c, hs, ha0, _, _, ha, _, _⟩ := pyStrptime3_inv h
  obtain ⟨c0, hc0⟩ := List.exists_mem_of_ne_nil a ha0
  have hc0d : pyIsDigitChar c0 = true := List.all_eq_true.mp ha c0 hc0
  have hc0x : c0 ∈ x :=
    mem_of_mem_splitOnChar (hs ▸ List.mem_cons_self a [b, c]) hc0
  have hmemf : c0 ∈ stripDotsDashes x := by
    obtain ⟨hdot, hdash, _⟩ := digitChar_props hc0d
    simp only [stripDotsDashes, List.mem_filter]
    exact ⟨⟨hc0x, by simpa using hdot⟩, by simpa using hdash⟩
  have hall : (stripDotsDashes x).all pyIsDigitChar = true := by
    rw [List.all_eq_true]
    intro ch hchf
    simp only [stripDotsDashes, List.mem_filter] at hchf
    rcases hchars ch hchf.1.1 with hd | hsep
    · exact hd
    · exact absurd hsep (by simpa using hchf.2)
  simp only [pyIsdigit, Bool.and_eq_true]
  exact ⟨by simpa using List.ne_nil_of_mem hmemf, hall⟩

theorem pyStrptime3_month {sep : Char} {ord : FieldOrder} {x : PyStr} {d : CanonicalDate}
    (h : pyStrptime3 sep ord x = some d) : 1 ≤ d.month ∧ d.month ≤ 12 := by
  unfold pyStrptime3 at h
  cases hs : splitOnChar sep x with
  | nil => rw [hs] at h; exact absurd h (by simp)
  | cons a t1 =>
    cases t1 with
    | nil => rw [hs] at h; exact absurd h (by simp)
    | cons b t2 =>
      cases t2 with
      | nil => rw [hs] at h; exact absurd h (by simp)
      | cons c t3 =>
        cases t3 with
        | nil =>
          rw [hs] at h
          cases ord with
          | ymd =>
            obtain ⟨_, h2, _, hd, _⟩ := mkDate3_inv h
            obtain ⟨_, _, hlo, hhi⟩ := isMonthTok_facts h2
            rw [hd]
            exact ⟨hlo, hhi⟩
          | mdy =>
            obtain ⟨_, h2, _, hd, _⟩ := mkDate3_inv h
            obtain ⟨_, _, hlo, hhi⟩ := isMonthTok_facts h2
            rw [hd]
            exact ⟨hlo, hhi⟩
          | dmy =>
            obtain ⟨_, h2, _, hd, _⟩ := mkDate3_inv h
            obtain ⟨_, _, hlo, hhi⟩ := isMonthTok_facts h2
            rw [hd]
            exact ⟨hlo, hhi⟩
        | cons d4 t4 => rw [hs] at h; exact absurd h (by simp)

theorem lookup_mem_values {α β : Type} [BEq α] {l : List (α × β)} {k : α} {v : β}
    (h : l.lookup k = some v) : v ∈ l.map Prod.snd := by
  induction l with
  | nil => simp [List.lookup] at h
  | cons p rest ih =>
    rw [List.lookup] at h
    cases hk : (k == p.1) with
    | true => rw [hk] at h; simp [Option.some.inj h]
    | false => rw [hk] at h; exact List.mem_cons_of_mem _ (ih h)

theorem monthAbbrevIndex_range {l : PyStr} {m : Nat} (h : monthAbbrevIndex l = some m) :
    1 ≤ m ∧ m ≤ 12 := by
  have hv := lookup_mem_values h
  have h12 : m = 1 ∨ m = 2 ∨ m = 3 ∨ m = 4 ∨ m = 5 ∨ m = 6 ∨ m = 7 ∨ m = 8 ∨ m = 9 ∨
      m = 10 ∨ m = 11 ∨ m = 12 := by
    simpa [monthNames] using hv
  rcases h12 with rfl | rfl | rfl | rfl | rfl | rfl | rfl | rfl | rfl | rfl | rfl | rfl <;>
    exact ⟨by decide, by decide⟩

theorem pdToDatetimeCoerce_inv {t : PyStr} {d : CanonicalDate}
    (h : pdToDatetimeCoerce t = some d) : (1 ≤ d.month ∧ d.month ≤ 12) ∧ d.day = 1 := by
  unfold pdToDatetimeCoerce at h
  cases hm : monthAbbrevIndex (t.takeWhile pyIsAlphaChar) with
  | none => rw [hm] at h; exact absurd h (by simp)
  | some m =>
    rw [hm] at h
    have hr := monthAbbrevIndex_range hm
    split at h
    · exact absurd h (by simp)
    · rename_i x0 m2 heq2
      obtain rfl : m = m2 := Option.some.inj heq2
      split at h
      · exact absurd h (by simp)
      · split at h
        · split at h
          · exact absurd h (by simp)
          · rw [← Option.some.inj h]
            exact ⟨hr, rfl⟩
        · exact absurd h (by simp)
      · exact absurd h (by simp)

theorem daysInMonth_le (y m : Nat) : daysInMonth y m ≤ 31 := by
  unfold daysInMonth
  split
  · split <;> omega
  · split <;> omega

theorem pyStrptime3_day {sep : Char} {ord : FieldOrder} {x : PyStr} {d : CanonicalDate}
    (h : pyStrptime3 sep ord x = some d) : d.day ≤ 31 := by
  unfold pyStrptime3 at h
  cases hs : splitOnChar sep x with
  | nil => rw [hs] at h; exact absurd h (by simp)
  | cons a t1 =>
    cases t1 with
    | nil => rw [hs] at h; exact absurd h (by simp)
    | cons b t2 =>
      cases t2 with
      | nil => rw [hs] at h; exact absurd h (by simp)
      | cons c t3 =>
        cases t3 with
        | nil =>
          rw [hs] at h
          cases ord with
          | ymd =>
            obtain ⟨_, _, _, hd, hle⟩ := mkDate3_inv h
            rw [hd]
            exact le_trans hle (daysInMonth_le _ _)
          | mdy =>
            obtain ⟨_, _, _, hd, hle⟩ := mkDate3_inv h
            rw [hd]
            exact le_trans hle (daysInMonth_le _ _)
          | dmy =>
            obtain ⟨_, _, _, hd, hle⟩ := mkDate3_inv h
            rw [hd]
            exact le_trans hle (daysInMonth_le _ _)
        | cons d4 t4 => rw [hs] at h; exact absurd h (by simp)

theorem pdToDatetimeCoerce_head_not_alpha {c : Char} {r : PyStr}
    (h : pyIsAlphaChar c = false) : pdToDatetimeCoerce (c :: r) = none := by
  unfold pdToDatetimeCoerce
  rw [List.takeWhile_cons, h]
  rfl

theorem tryFormatsWith_none {fmts : List (Char × FieldOrder)} {t : PyStr}
    (h : ∀ sep ord, (sep, ord) ∈ fmts → pyStrptime3 sep ord t = none) :
    tryFormatsWith fmts t = none := by
  induction fmts with
  | nil => rfl
  | cons f rest ih =>
    obtain ⟨sep, ord⟩ := f
    unfold tryFormatsWith
    rw [h sep ord (List.mem_cons_self _ _)]
    exact ih (fun s o hm => h s o (List.mem_cons_of_mem _ hm))

theorem tryFormatsWith_month {fmts : List (Char × FieldOrder)} {t : PyStr} {d : CanonicalDate}
    (h : tryFormatsWith fmts t = some d) :
    (1 ≤ d.month ∧ d.month ≤ 12) ∧ (d.month = 6 → d = ⟨2000, 6, 1⟩) := by
  induction fmts with
  | nil => exact absurd h (by simp [tryFormatsWith])
  | cons f rest ih =>
    obtain ⟨sep, ord⟩ := f
    unfold tryFormatsWith at h
    cases hp : pyStrptime3 sep ord t with
    | none => rw [hp] at h; exact ih h
    | some dt =>
      rw [hp] at h
      have hd := Option.some.inj h
      by_cases h6 : (dt.month == 6) = true
      · rw [if_pos h6] at hd
        rw [← hd]
        exact ⟨⟨by decide, by decide⟩, fun _ => rfl⟩
      · rw [if_neg h6] at hd
        rw [← hd]
        have hb := pyStrptime3_month hp
        exact ⟨hb, fun hm => absurd hm (by simpa using h6)⟩

theorem tryFormatsWith_day {fmts : List (Char × FieldOrder)} {t : PyStr} {d : CanonicalDate}
    (h : tryFormatsWith fmts t = some d) : d.day ≤ 31 := by
  induction fmts with
  | nil => exact absurd h (by simp [tryFormatsWith])
  | cons f rest ih =>
    obtain ⟨sep, ord⟩ := f
    unfold tryFormatsWith at h
    cases hp : pyStrptime3 sep ord t with
    | none => rw [hp] at h; exact ih h
    | some dt =>
      rw [hp] at h
      have hd := Option.some.inj h
      by_cases h6 : (dt.month == 6) = true
      · rw [if_pos h6] at hd
        rw [← hd]
        decide
      · rw [if_neg h6] at hd
        rw [← hd]
        exact pyStrptime3_day hp

theorem tryConvertWF_str_eq (fmts : List (Char × FieldOrder)) (s : PyStr) :
    tryConvertWithFormats fmts (.str s) =
      match pyFloatParse s with
      | some true => none
      | _ =>
        if pyStartsWithST (pyStrip s) then none
        else if pyIsdigit (stripDotsDashes (pyStrip s)) then none
        else
          match tryFormatsWith fmts (pyStrip s) with
          | some dt => some dt
          | none =>
            match pdToDatetimeCoerce (pyStrip s) with
            | none => none
            | some r => some (if r.month == 6 then ⟨2000, 6, 1⟩ else r) := rfl

theorem tryConvertWF_str_float_true {fmts : List (Char × FieldOrder)} {s : PyStr}
    (h : pyFloatParse s = some true) : tryConvertWithFormats fmts (.str s) = none := by
  rw [tryConvertWF_str_eq, h]

theorem tryConvertWF_str_main {fmts : List (Char × FieldOrder)} {s : PyStr}
    (h : pyFloatParse s = some false ∨ pyFloatParse s = none) :
    tryConvertWithFormats fmts (.str s) =
      (if pyStartsWithST (pyStrip s) then none
       else if pyIsdigit (stripDotsDashes (pyStrip s)) then none
       else
         match tryFormatsWith fmts (pyStrip s) with
         | some dt => some dt
         | none =>
           match pdToDatetimeCoerce (pyStrip s) with
           | none => none
           | some r => some (if r.month == 6 then ⟨2000, 6, 1⟩ else r)) := by
  rw [tryConvertWF_str_eq]
  rcases h with h | h <;> rw [h]

theorem process_cell_value_of_none {v : Cell} {gm : List (PyStr × PyStr)}
    (h : tryConvertToDatetime v = none) : process_cell_value v gm = (v, false) := by
  unfold process_cell_value
  cases hv : pdIsna v with
  | true => rw [if_pos (by simp [hv])]
  | false =>
    rw [if_neg (by simp [hv])]
    rw [h]

theorem process_cell_value_of_some {v : Cell} {gm : List (PyStr × PyStr)} {dt : CanonicalDate}
    (h : tryConvertToDatetime v = some dt) :
    process_cell_value v gm =
      (.str ((gm.lookup (format_datetime_to_gene dt)).getD (format_datetime_to_gene dt)),
       true) := by
  have hna : pdIsna v = false := by
    cases v with
    | na => exact absurd h (by simp [tryConvertToDatetime, tryConvertWithFormats])
    | num => rfl
    | str s => rfl
    | date d => rfl
  unfold process_cell_value
  rw [if_neg (by simp [hna]), h]
  cases hl : gm.lookup (format_datetime_to_gene dt) with
  | none => simp [hl]
  | some sym => simp [hl]

theorem pyFloatParse_eq (s : PyStr) :
    pyFloatParse s =
      (if isInfNan (stripSign (pyStrip s)) then some true
       else
         if validMantissa (splitAtExp (stripSign (pyStrip s))).1 &&
             (match (splitAtExp (stripSign (pyStrip s))).2 with
              | none => true
              | some e => validExp e) then
           some (mantissaTruthy (splitAtExp (stripSign (pyStrip s))).1)
         else none) := rfl

theorem startsWithST_false_of_head {t : PyStr}
    (h : ∀ a r, t = a :: r → (pyToUpper a == 'S') = false) : pyStartsWithST t = false := by
  cases t with
  | nil => rfl
  | cons a r =>
    cases r with
    | nil => rfl
    | cons b r2 =>
      show (pyToUpper a == 'S' && pyToUpper b == 'T') = false
      rw [h a (b :: r2) rfl]
      rfl

theorem tryConvert_none_of_floatParse_isSome {s : PyStr}
    (hs : (pyFloatParse s).isSome = true) : tryConvertToDatetime (.str s) = none := by
  cases hf : pyFloatParse s with
  | none => rw [hf] at hs; simp at hs
  | some bv =>
    cases bv with
    | true => exact tryConvertWF_str_float_true hf
    | false =>
      have hff := hf
      rw [pyFloatParse_eq] at hff
      by_cases hinf : isInfNan (stripSign (pyStrip s)) = true
      · rw [if_pos hinf] at hff
        exact absurd hff (by simp)
      · rw [if_neg hinf] at hff
        by_cases hval : (validMantissa (splitAtExp (stripSign (pyStrip s))).1 &&
            (match (splitAtExp (stripSign (pyStrip s))).2 with
             | none => true
             | some e => validExp e)) = true
        · -- the float string is syntactically valid: show every guard path rejects
          have hvm : validMantissa (splitAtExp (stripSign (pyStrip s))).1 = true := by
            simp only [Bool.and_eq_true] at hval
            exact hval.1
          clear hval hff hinf hs
          simp only [validMantissa, Bool.and_eq_true, List.all_eq_true, decide_eq_true_eq,
            List.any_eq_true] at hvm
          obtain ⟨⟨hmall, c0, hc0m, hc0d⟩, _⟩ := hvm
          -- names for the three layers of the float syntax
          have hmchars : ∀ c ∈ (splitAtExp (stripSign (pyStrip s))).1,
              pyIsDigitChar c = true ∨ c = '.' := by
            intro c hcm
            have h' := hmall c hcm
            simp only [Bool.or_eq_true, beq_iff_eq] at h'
            exact h'
          have hmne : (splitAtExp (stripSign (pyStrip s))).1 ≠ [] :=
            List.ne_nil_of_mem hc0m
          -- the mantissa characters sit inside the stripped string
          have hbsub : ∀ c ∈ stripSign (pyStrip s), c ∈ pyStrip s := by
            intro c hcb
            rcases stripSign_shape (pyStrip s) with he | ⟨sg, r, _, hsr, he⟩
            · rwa [he] at hcb
            · rw [hsr]
              exact List.mem_cons_of_mem _ (he ▸ hcb)
          have hmsub : ∀ c ∈ (splitAtExp (stripSign (pyStrip s))).1,
              c ∈ stripSign (pyStrip s) := by
            intro c hcm
            rcases splitAtExp_recon (stripSign (pyStrip s)) with ⟨_, h1⟩ | ⟨ch, e, _, _, h1⟩
            · rwa [← h1]
            · rw [h1]
              exact List.mem_append_left _ hcm
          -- head of the stripped string: a sign, a digit, or a dot
          have hthead : ∀ a r, pyStrip s = a :: r →
              (a = '+' ∨ a = '-' ∨ pyIsDigitChar a = true ∨ a = '.') := by
            intro a r har
            rcases stripSign_shape (pyStrip s) with he | ⟨sg, r2, hsg, hsr, _⟩
            · -- no sign: the head of the body is the head of the mantissa
              rcases splitAtExp_recon (stripSign (pyStrip s)) with ⟨_, h1⟩ | ⟨ch, e, _, _, h1⟩
              · -- no exponent either: body = mantissa
                have hm : (splitAtExp (stripSign (pyStrip s))).1 = a :: r := by
                  rw [h1, he, har]
                have : a ∈ (splitAtExp (stripSign (pyStrip s))).1 := by
                  rw [hm]; exact List.mem_cons_self _ _
                rcases hmchars a this with hd | hdot
                · exact Or.inr (Or.inr (Or.inl hd))
                · exact Or.inr (Or.inr (Or.inr hdot))
              · -- exponent present: the mantissa is a non-empty prefix of the body
                cases hmc : (splitAtExp (stripSign (pyStrip s))).1 with
                | nil => exact absurd hmc hmne
                | cons a2 r3 =>
                  have hb2 : stripSign (pyStrip s) = a2 :: (r3 ++ ch :: e) := by
                    rw [h1, hmc]; rfl
                  rw [he, har] at hb2
                  have ha2 : a = a2 := (List.cons.inj hb2).1
                  have : a2 ∈ (splitAtExp (stripSign (pyStrip s))).1 := by
                    rw [hmc]; exact List.mem_cons_self _ _
                  rcases hmchars a2 this with hd | hdot
                  · exact Or.inr (Or.inr (Or.inl (ha2 ▸ hd)))
                  · exact Or.inr (Or.inr (Or.inr (ha2 ▸ hdot)))
            · -- sign present
              rw [har] at hsr
              have := (List.cons.inj hsr).1
              rcases hsg with h' | h'
              · exact Or.inl (this ▸ h')
              · exact Or.inr (Or.inl (this ▸ h'))
          have hST : pyStartsWithST (pyStrip s) = false := by
            apply startsWithST_false_of_head
            intro a r har
            rcases hthead a r har with rfl | rfl | hd | rfl
            · decide
            · decide
            · exact (digitChar_props hd).2.2.2.2.2.2.2
            · decide
          have htne : pyStrip s ≠ [] := by
            intro hnil
            obtain ⟨c1, hc1⟩ := List.exists_mem_of_ne_nil _ hmne
            have := hbsub c1 (hmsub c1 hc1)
            rw [hnil] at this
            simp at this
          by_cases hspec : (pyStrip s).any (fun c => c == '+' || c == 'e' || c == 'E') = true
          · -- an exponent marker or plus sign survives the dot/dash stripping
            obtain ⟨ch, hcht, hchp⟩ := List.any_eq_true.mp hspec
            have hch3 : ch = '+' ∨ ch = 'e' ∨ ch = 'E' := by
              simp only [Bool.or_eq_true, beq_iff_eq] at hchp
              tauto
            have hchnd : pyIsDigitChar ch = false := by
              rcases hch3 with rfl | rfl | rfl <;> decide
            have hchmem : ch ∈ stripDotsDashes (pyStrip s) := by
              simp only [stripDotsDashes, List.mem_filter]
              refine ⟨⟨hcht, ?_⟩, ?_⟩ <;>
                (rcases hch3 with rfl | rfl | rfl <;> decide)
            have hguard : pyIsdigit (stripDotsDashes (pyStrip s)) = false := by
              cases hA : (stripDotsDashes (pyStrip s)).all pyIsDigitChar with
              | false => simp [pyIsdigit, hA]
              | true =>
                have := List.all_eq_true.mp hA ch hchmem
                rw [hchnd] at this
                exact absurd this (by simp)
            have hfmts : tryFormatsWith pythonFormats (pyStrip s) = none := by
              apply tryFormatsWith_none
              intro sep ord hmem
              cases hp : pyStrptime3 sep ord (pyStrip s) with
              | none => rfl
              | some d =>
                exfalso
                rcases pyStrptime3_chars hp ch hcht with hd | hsep
                · rw [hchnd] at hd; exact absurd hd (by simp)
                · have hsep2 : sep = '-' ∨ sep = '/' := by
                    simp only [pythonFormats, List.mem_cons] at hmem
                    rcases hmem with h' | h' | h' | h' | h' <;>
                      first
                        | exact Or.inl (congrArg Prod.fst h')
                        | exact Or.inr (congrArg Prod.fst h')
                        | simp at h'
                  rcases hch3 with rfl | rfl | rfl <;> rcases hsep2 with rfl | rfl <;>
                    simp at hsep
            have hpd : pdToDatetimeCoerce (pyStrip s) = none := by
              cases ht2 : pyStrip s with
              | nil => exact absurd ht2 htne
              | cons a r =>
                apply pdToDatetimeCoerce_head_not_alpha
                rcases hthead a r ht2 with rfl | rfl | hd | rfl
                · decide
                · decide
                · exact (digitChar_props hd).2.2.2.2.2.2.1
                · decide
            rw [tryConvertToDatetime, tryConvertWF_str_main (Or.inl hf),
              if_neg (by simp [hST]), if_neg (by simp [hguard]), hfmts, hpd]
          · -- no such marker: the stripped string is all zeros, dots and dashes
            have hspecF : (pyStrip s).any (fun c => c == '+' || c == 'e' || c == 'E') = false := by
              cases hA : (pyStrip s).any (fun c => c == '+' || c == 'e' || c == 'E') with
              | false => rfl
              | true => exact absurd hA hspec
            have hnospec : ∀ c ∈ pyStrip s, ¬(c = '+' ∨ c = 'e' ∨ c = 'E') := by
              intro c hcm hor
              have hfc := List.any_eq_false.mp hspecF c hcm
              rcases hor with rfl | rfl | rfl <;> exact hfc (by decide)
            -- no exponent may be present
            have hnone : (splitAtExp (stripSign (pyStrip s))).2 = none := by
              rcases splitAtExp_recon (stripSign (pyStrip s)) with ⟨h2, _⟩ | ⟨ch, e, hch, h2, h1⟩
              · exact h2
              · exfalso
                have hchb : ch ∈ stripSign (pyStrip s) := by
                  rw [h1]
                  exact List.mem_append_right _ (List.mem_cons_self _ _)
                exact hnospec ch (hbsub ch hchb)
                  (by rcases hch with rfl | rfl
                      · exact Or.inr (Or.inl rfl)
                      · exact Or.inr (Or.inr rfl))
            have hbm : (splitAtExp (stripSign (pyStrip s))).1 = stripSign (pyStrip s) := by
              rcases splitAtExp_recon (stripSign (pyStrip s)) with ⟨_, h1⟩ | ⟨ch, e, _, h2, _⟩
              · exact h1
              · rw [h2] at hnone; exact absurd hnone (by simp)
            have htm : ∀ c ∈ pyStrip s, c = '-' ∨ c ∈ (splitAtExp (stripSign (pyStrip s))).1 := by
              intro c hcm
              rw [hbm]
              rcases stripSign_shape (pyStrip s) with he | ⟨sg, r2, hsg, hsr, he⟩
              · exact Or.inr (by rw [he]; exact hcm)
              · rw [hsr] at hcm
                rcases List.mem_cons.mp hcm with rfl | hcr
                · rcases hsg with h' | h'
                  · exact absurd (Or.inl h') (hnospec c (by rw [hsr]; exact List.mem_cons_self _ _))
                  · exact Or.inl h'
                · exact Or.inr (by rw [he]; exact hcr)
            have hguard : pyIsdigit (stripDotsDashes (pyStrip s)) = true := by
              simp only [pyIsdigit, Bool.and_eq_true]
              constructor
              · obtain ⟨hdot, hdash, _⟩ := digitChar_props hc0d
                have hc0t : c0 ∈ pyStrip s := hbsub c0 (hmsub c0 hc0m)
                have : c0 ∈ stripDotsDashes (pyStrip s) := by
                  simp only [stripDotsDashes, List.mem_filter]
                  exact ⟨⟨hc0t, by simpa using hdot⟩, by simpa using hdash⟩
                simpa using List.ne_nil_of_mem this
              · rw [List.all_eq_true]
                intro c hcf
                simp only [stripDotsDashes, List.mem_filter] at hcf
                obtain ⟨⟨hct, hcdot⟩, hcdash⟩ := hcf
                rcases htm c hct with rfl | hcm
                · simp at hcdash
                · rcases hmchars c hcm with hd | rfl
                  · exact hd
                  · simp at hcdot
            rw [tryConvertToDatetime, tryConvertWF_str_main (Or.inl hf),
              if_neg (by simp [hST]), if_pos (by simp [hguard])]
        · rw [if_neg hval] at hff
          exact absurd hff (by simp)

theorem tryConvert_str_props {s : PyStr} {d : CanonicalDate}
    (h : tryConvertToDatetime (.str s) = some d) :
    (1 ≤ d.month ∧ d.month ≤ 12) ∧ (d.month = 6 → d = ⟨2000, 6, 1⟩) ∧ d.day ≤ 31 := by
  cases hf : pyFloatParse s with
  | some bv =>
    cases bv with
    | true => rw [tryConvertToDatetime, tryConvertWF_str_float_true hf] at h; exact absurd h (by simp)
    | false =>
      rw [tryConvertToDatetime, tryConvertWF_str_main (Or.inl hf)] at h
      by_cases h1 : pyStartsWithST (pyStrip s) = true
      · rw [if_pos h1] at h; exact absurd h (by simp)
      · rw [if_neg h1] at h
        by_cases h2 : pyIsdigit (stripDotsDashes (pyStrip s)) = true
        · rw [if_pos h2] at h; exact absurd h (by simp)
        · rw [if_neg h2] at h
          cases hfm : tryFormatsWith pythonFormats (pyStrip s) with
          | some dt =>
            rw [hfm] at h
            exact (Option.some.inj h) ▸
              ⟨(tryFormatsWith_month hfm).1, (tryFormatsWith_month hfm).2, tryFormatsWith_day hfm⟩
          | none =>
            rw [hfm] at h
            cases hpd : pdToDatetimeCoerce (pyStrip s) with
            | none => rw [hpd] at h; exact absurd h (by simp)
            | some r =>
              rw [hpd] at h
              have hd := Option.some.inj h
              by_cases h6 : (r.month == 6) = true
              · rw [if_pos h6] at hd
                rw [← hd]
                exact ⟨⟨by decide, by decide⟩, fun _ => rfl, by decide⟩
              · rw [if_neg h6] at hd
                rw [← hd]
                exact ⟨(pdToDatetimeCoerce_inv hpd).1, fun hm => absurd hm (by simpa using h6),
                  by rw [(pdToDatetimeCoerce_inv hpd).2]; omega⟩
  | none =>
    rw [tryConvertToDatetime, tryConvertWF_str_main (Or.inr hf)] at h
    by_cases h1 : pyStartsWithST (pyStrip s) = true
    · rw [if_pos h1] at h; exact absurd h (by simp)
    · rw [if_neg h1] at h
      by_cases h2 : pyIsdigit (stripDotsDashes (pyStrip s)) = true
      · rw [if_pos h2] at h; exact absurd h (by simp)
      · rw [if_neg h2] at h
        cases hfm : tryFormatsWith pythonFormats (pyStrip s) with
        | some dt =>
          rw [hfm] at h
          exact (Option.some.inj h) ▸
            ⟨(tryFormatsWith_month hfm).1, (tryFormatsWith_month hfm).2, tryFormatsWith_day hfm⟩
        | none =>
          rw [hfm] at h
          cases hpd : pdToDatetimeCoerce (pyStrip s) with
          | none => rw [hpd] at h; exact absurd h (by simp)
          | some r =>
            rw [hpd] at h
            have hd := Option.some.inj h
            by_cases h6 : (r.month == 6) = true
            · rw [if_pos h6] at hd
              rw [← hd]
              exact ⟨⟨by decide, by decide⟩, fun _ => rfl, by decide⟩
            · rw [if_neg h6] at hd
              rw [← hd]
              exact ⟨(pdToDatetimeCoerce_inv hpd).1, fun hm => absurd hm (by simpa using h6),
                by rw [(pdToDatetimeCoerce_inv hpd).2]; omega⟩

theorem tryFormats_python_eq_slash {t : PyStr}
    (hg : pyIsdigit (stripDotsDashes t) = false) :
    tryFormatsWith pythonFormats t = tryFormatsWith slashFormats t := by
  have h1 : pyStrptime3 '-' .ymd t = none := by
    cases hp : pyStrptime3 '-' .ymd t with
    | none => rfl
    | some d => exact absurd (pyStrptime3_guard hp) (by simp [hg])
  have h2 : pyStrptime3 '-' .dmy t = none := by
    cases hp : pyStrptime3 '-' .dmy t with
    | none => rfl
    | some d => exact absurd (pyStrptime3_guard hp) (by simp [hg])
  simp only [tryFormatsWith, pythonFormats, slashFormats, h1, h2]

theorem tryFormatsWithE_ok (fmts : List (Char × FieldOrder)) (t : PyStr) :
    tryFormatsWithE fmts t = .ok (tryFormatsWith fmts t) := by
  induction fmts with
  | nil => rfl
  | cons f rest ih =>
    obtain ⟨sep, ord⟩ := f
    rw [tryFormatsWithE, tryFormatsWith, pyStrptime3E]
    cases pyStrptime3 sep ord t with
    | some d => rfl
    | none => exact ih

theorem forall2_map_self {α : Type} {R : α → α → Prop} {f : α → α} {l : List α}
    (h : ∀ a ∈ l, R a (f a)) : List.Forall₂ R l (l.map f) := by
  induction l with
  | nil => simp
  | cons a rest ih =>
    rw [List.map_cons]
    exact List.Forall₂.cons (h a (List.mem_cons_self _ _))
      (ih (fun x hx => h x (List.mem_cons_of_mem _ hx)))

theorem cell_unchanged_of_none {c : Cell} {gm : List (PyStr × PyStr)}
    (h : tryConvertToDatetime c = none) : (process_cell_value c gm).1 = c := by
  rw [process_cell_value_of_none h]

theorem tryConvertToDatetimeE_str_eq (s : PyStr) :
    tryConvertToDatetimeE (.str s) =
      (match (match pyFloatE s with
              | .ok b => Except.ok b
              | .error .valueError => Except.ok false
              | .error e => Except.error e) with
       | .error e => .error e
       | .ok true => .ok none
       | .ok false =>
         if pyStartsWithST (pyStrip s) then .ok none
         else if pyIsdigit (stripDotsDashes (pyStrip s)) then .ok none
         else
           match tryFormatsWithE pythonFormats (pyStrip s) with
           | .error e => .error e
           | .ok (some dt) => .ok (some dt)
           | .ok none =>
             match pdToDatetimeCoerceE (pyStrip s) with
             | .ok none => .ok none
             | .ok (some r) => .ok (some (if r.month == 6 then ⟨2000, 6, 1⟩ else r))
             | .error .valueError => .ok none
             | .error .typeError => .ok none
             | .error e => .error e) := rfl

theorem tryConvertToDatetimeE_float_true {s : PyStr} (h : pyFloatParse s = some true) :
    tryConvertToDatetimeE (.str s) = .ok none := by
  have hE : pyFloatE s = Except.ok true := by unfold pyFloatE; rw [h]
  rw [tryConvertToDatetimeE_str_eq, hE]

theorem tryConvertToDatetimeE_str_main {s : PyStr}
    (h : pyFloatParse s = some false ∨ pyFloatParse s = none) :
    tryConvertToDatetimeE (.str s) =
      (if pyStartsWithST (pyStrip s) then Except.ok none
       else if pyIsdigit (stripDotsDashes (pyStrip s)) then .ok none
       else
         match tryFormatsWithE pythonFormats (pyStrip s) with
         | .error e => .error e
         | .ok (some dt) => .ok (some dt)
         | .ok none =>
           match pdToDatetimeCoerceE (pyStrip s) with
           | .ok none => .ok none
           | .ok (some r) => .ok (some (if r.month == 6 then ⟨2000, 6, 1⟩ else r))
           | .error .valueError => .ok none
           | .error .typeError => .ok none
           | .error e => .error e) := by
  rcases h with h | h
  · have hE : pyFloatE s = Except.ok false := by unfold pyFloatE; rw [h]
    rw [tryConvertToDatetimeE_str_eq, hE]
  · have hE : pyFloatE s = Except.error .valueError := by unfold pyFloatE; rw [h]
    rw [tryConvertToDatetimeE_str_eq, hE]

theorem tryConvertToDatetimeE_agrees (x : Cell) :
    tryConvertToDatetimeE x = .ok (tryConvertToDatetime x) := by
  cases x with
  | date d => rfl
  | num => rfl
  | na => rfl
  | str s =>
    cases hf : pyFloatParse s with
    | some bv =>
      cases bv with
      | true =>
        rw [tryConvertToDatetime, tryConvertWF_str_float_true hf,
          tryConvertToDatetimeE_float_true hf]
      | false =>
        rw [tryConvertToDatetime, tryConvertWF_str_main (Or.inl hf),
          tryConvertToDatetimeE_str_main (Or.inl hf)]
        by_cases h1 : pyStartsWithST (pyStrip s) = true
        · rw [if_pos h1, if_pos h1]
        · rw [if_neg h1, if_neg h1]
          by_cases h2 : pyIsdigit (stripDotsDashes (pyStrip s)) = true
          · rw [if_pos h2, if_pos h2]
          · rw [if_neg h2, if_neg h2, tryFormatsWithE_ok]
            cases tryFormatsWith pythonFormats (pyStrip s) with
            | some dt => rfl
            | none =>
              have hpc : pdToDatetimeCoerceE (pyStrip s) =
                  .ok (pdToDatetimeCoerce (pyStrip s)) := rfl
              rw [hpc]
              cases pdToDatetimeCoerce (pyStrip s) with
              | none => rfl
              | some r => rfl
    | none =>
      rw [tryConvertToDatetime, tryConvertWF_str_main (Or.inr hf),
        tryConvertToDatetimeE_str_main (Or.inr hf)]
      by_cases h1 : pyStartsWithST (pyStrip s) = true
      · rw [if_pos h1, if_pos h1]
      · rw [if_neg h1, if_neg h1]
        by_cases h2 : pyIsdigit (stripDotsDashes (pyStrip s)) = true
        · rw [if_pos h2, if_pos h2]
        · rw [if_neg h2, if_neg h2, tryFormatsWithE_ok]
          cases tryFormatsWith pythonFormats (pyStrip s) with
          | some dt => rfl
          | none =>
            have hpc : pdToDatetimeCoerceE (pyStrip s) =
                .ok (pdToDatetimeCoerce (pyStrip s)) := rfl
            rw [hpc]
            cases pdToDatetimeCoerce (pyStrip s) with
            | none => rfl
            | some r => rfl

theorem monthMap_length {m : Nat} (h1 : 1 ≤ m) (h2 : m ≤ 12) : (monthMap m).length = 3 := by
  interval_cases m <;> decide

theorem monthMap_invalid {m : Nat} (h : m = 0 ∨ 13 ≤ m) : monthMap m = [] := by
  match m, h with
  | 0, _ => rfl
  | (n + 13), _ => rfl

theorem map_eq_self {α : Type} {f : α → α} {l : List α} (h : ∀ a ∈ l, f a = a) :
    l.map f = l := by
  induction l with
  | nil => rfl
  | cons a rest ih =>
    rw [List.map_cons, h a (List.mem_cons_self _ _),
      ih (fun x hx => h x (List.mem_cons_of_mem _ hx))]

theorem filterMap_eq_nil_of {α β : Type} {f : α → Option β} {l : List α}
    (h : ∀ a ∈ l, f a = none) : l.filterMap f = [] := by
  induction l with
  | nil => rfl
  | cons a rest ih =>
    rw [List.filterMap_cons, h a (List.mem_cons_self _ _)]
    exact ih (fun x hx => h x (List.mem_cons_of_mem _ hx))

theorem flatMap_eq_nil_of {α β : Type} {f : α → List β} {l : List α}
    (h : ∀ a ∈ l, f a = []) : l.flatMap f = [] := by
  induction l with
  | nil => rfl
  | cons a rest ih =>
    rw [List.flatMap_cons, h a (List.mem_cons_self _ _), List.nil_append]
    exact ih (fun x hx => h x (List.mem_cons_of_mem _ hx))

theorem enumFrom_snd_mem {α : Type} {l : List α} :
    ∀ {n : Nat} {p : Nat × α}, p ∈ l.enumFrom n → p.2 ∈ l := by
  induction l with
  | nil => intro n p hp; simp [List.enumFrom] at hp
  | cons a rest ih =>
    intro n p hp
    rw [List.enumFrom_cons] at hp
    rcases List.mem_cons.mp hp with rfl | hp2
    · exact List.mem_cons_self _ _
    · exact List.mem_cons_of_mem _ (ih hp2)

theorem enum_snd_mem {α : Type} {l : List α} {p : Nat × α} (h : p ∈ l.enum) : p.2 ∈ l :=
  enumFrom_snd_mem h

theorem tryConvert_day {c : Cell} {dt : CanonicalDate}
    (h : tryConvertToDatetime c = some dt) (hc : validDateCell c = true) : dt.day ≤ 31 := by
  cases c with
  | na => exact absurd h (by simp [tryConvertToDatetime, tryConvertWithFormats])
  | num => exact absurd h (by simp [tryConvertToDatetime, tryConvertWithFormats])
  | date d =>
    have he : tryConvertToDatetime (.date d) = some d := rfl
    rw [he] at h
    rw [(Option.some.inj h).symm]
    simpa [validDateCell] using hc
  | str s => exact (tryConvert_str_props h).2.2

theorem resolved_code_stable {dt : CanonicalDate} (hday : dt.day ≤ 31) :
    process_cell_value (.str (resolveCode (format_datetime_to_gene dt))) load_reference_data
      = (.str (resolveCode (format_datetime_to_gene dt)), false) := by
  obtain ⟨y, m, d⟩ := dt
  have hd31 : d ≤ 31 := hday
  have hdm : d ∈ List.range 32 := List.mem_range.mpr (by omega)
  by_cases hm : m ∈ ([1, 2, 3, 4, 5, 6, 7, 8, 9, 10, 11, 12] : List Nat)
  · have hfy : format_datetime_to_gene ⟨y, m, d⟩ = format_datetime_to_gene ⟨0, m, d⟩ := rfl
    rw [hfy]
    have hbig : ([1, 2, 3, 4, 5, 6, 7, 8, 9, 10, 11, 12] : List Nat).all (fun mm =>
        (List.range 32).all (fun dd =>
          process_cell_value
              (.str (resolveCode (format_datetime_to_gene ⟨0, mm, dd⟩))) load_reference_data
            == (.str (resolveCode (format_datetime_to_gene ⟨0, mm, dd⟩)), false))) = true := by
      decide
    exact eq_of_beq (List.all_eq_true.mp (List.all_eq_true.mp hbig m hm) d hdm)
  · have hrange : m = 0 ∨ 13 ≤ m := by
      by_cases h0 : m = 0
      · exact Or.inl h0
      · right
        by_contra h13
        have hlo : 1 ≤ m := Nat.one_le_iff_ne_zero.mpr h0
        have hhi : m ≤ 12 := by omega
        interval_cases m <;> exact hm (by decide)
    have hm6 : (m == 6) = false := by
      apply beq_eq_false_iff_ne.mpr
      intro h6
      rcases hrange with h' | h' <;> omega
    have hfm : format_datetime_to_gene ⟨y, m, d⟩ = '-' :: zfill2 d := by
      show (if (m == 6) = true then pyS "JUN" else monthMap m ++ ('-' :: zfill2 d))
        = '-' :: zfill2 d
      rw [if_neg (by simp [hm6]), monthMap_invalid hrange, List.nil_append]
    rw [hfm]
    have hbig2 : (List.range 32).all (fun dd =>
        process_cell_value (.str (resolveCode ('-' :: zfill2 dd))) load_reference_data
          == (.str (resolveCode ('-' :: zfill2 dd)), false)) = true := by
      decide
    exact eq_of_beq (List.all_eq_true.mp hbig2 d hdm)

theorem pcv_output_unchanged {c : Cell} (hc : validDateCell c = true) :
    process_cell_value ((process_cell_value c load_reference_data).1) load_reference_data
      = ((process_cell_value c load_reference_data).1, false) := by
  cases hcl : tryConvertToDatetime c with
  | none =>
    rw [process_cell_value_of_none hcl]
    exact process_cell_value_of_none hcl
  | some dt =>
    rw [process_cell_value_of_some hcl]
    exact resolved_code_stable (tryConvert_day hcl hc)

theorem processSheet_id (n : String) (s : SheetData)
    (hh : ∀ c ∈ s.header, process_cell_value c load_reference_data = (c, false))
    (hr : ∀ row ∈ s.rows, ∀ c ∈ row, process_cell_value c load_reference_data = (c, false)) :
    processSheet n load_reference_data s = (s, []) := by
  obtain ⟨hd, rows⟩ := s
  simp only [processSheet, processHeaderRow]
  refine Prod.ext ?_ ?_
  · show SheetData.mk
        (hd.map fun c => (process_cell_value c load_reference_data).1)
        (rows.map fun row => row.map fun c => (process_cell_value c load_reference_data).1)
      = SheetData.mk hd rows
    rw [map_eq_self (fun c hc => by rw [hh c hc]),
      map_eq_self (fun row hrow => map_eq_self (fun c hc => by rw [hr row hrow c hc]))]
  · rw [List.append_eq_nil]
    constructor
    · apply filterMap_eq_nil_of
      intro p hp
      simp [hh p.2 (enum_snd_mem hp)]
    · apply flatMap_eq_nil_of
      intro pi hpi
      apply filterMap_eq_nil_of
      intro pj hpj
      simp [hr pi.2 (enum_snd_mem hpi) pj.2 (enum_snd_mem hpj)]

/-- Claim C1, as stated, is false on the code: the four ISO dash-separated
inputs consist only of digits, `'.'` and `'-'`, so the numeric-looking guard
of line 64 rejects them before any date template is tried; each passes
through unchanged with no change recorded, instead of yielding `MARCHF1`,
`SEPTIN7P2`, `DELEC1` and `JUL-04`. -/
theorem claim1_counterexample :
    process_cell_value (.str (pyS "2023-03-01")) load_reference_data
        = (.str (pyS "2023-03-01"), false)
  ∧ process_cell_value (.str (pyS "2023-09-13")) load_reference_data
        = (.str (pyS "2023-09-13"), false)
  ∧ process_cell_value (.str (pyS "2023-12-01")) load_reference_data
        = (.str (pyS "2023-12-01"), false)
  ∧ process_cell_value (.str (pyS "2023-07-04")) load_reference_data
        = (.str (pyS "2023-07-04"), false) := by
  refine ⟨by decide, by decide, by decide, by decide⟩

/-- Claim C1 amended: the same four dates written in the `MM/DD/YYYY` slash
template — which the guard does not reject — run the pipeline exactly as the
claim describes: `03/01/2023` yields `MARCHF1`, `09/13/2023` yields
`SEPTIN7P2`, `12/01/2023` yields `DELEC1`, and `07/04/2023` yields `JUL-04`
(resolving to itself) with a change recorded. -/
theorem claim1_theorem :
    process_cell_value (.str (pyS "03/01/2023")) load_reference_data
        = (.str (pyS "MARCHF1"), true)
  ∧ process_cell_value (.str (pyS "09/13/2023")) load_reference_data
        = (.str (pyS "SEPTIN7P2"), true)
  ∧ process_cell_value (.str (pyS "12/01/2023")) load_reference_data
        = (.str (pyS "DELEC1"), true)
  ∧ process_cell_value (.str (pyS "07/04/2023")) load_reference_data
        = (.str (pyS "JUL-04"), true) := by
  refine ⟨by decide, by decide, by decide, by decide⟩

/-- Claim C2, as stated, is false on the code at its own example
`"2024-06-15"`: that string is all digits after the guard strips `'-'`, so
classification rejects it and it never formats to `JUN`. -/
theorem claim2_counterexample :
    tryConvertToDatetime (.str (pyS "2024-06-15")) = none
  ∧ process_cell_value (.str (pyS "2024-06-15")) load_reference_data
      = (.str (pyS "2024-06-15"), false) := by
  refine ⟨by decide, by decide⟩

/-- Claim C2 amended: for every input string the classifier accepts, the
formatted code is `JUN` exactly when the classified month is June — so every
string that classifies as a June date of any year formats to `JUN`; the
slash-format example `06/03/1999` does classify and yields `JUN` with a
change recorded, while `2024-06-15` is rejected by the numeric-looking guard
before formatting. -/
theorem claim2_theorem :
    (∀ (s : PyStr) (d : CanonicalDate), tryConvertToDatetime (.str s) = some d →
      (format_datetime_to_gene d = pyS "JUN" ↔ d.month = 6))
  ∧ process_cell_value (.str (pyS "06/03/1999")) load_reference_data
      = (.str (pyS "JUN"), true) := by
  constructor
  · intro s d h
    constructor
    · intro hfmt
      by_contra hm6
      have hb := (tryConvert_str_props h).1
      have h6f : (d.month == 6) = false := beq_eq_false_iff_ne.mpr hm6
      unfold format_datetime_to_gene at hfmt
      rw [if_neg (by simp [h6f])] at hfmt
      have hlen := congrArg List.length hfmt
      rw [List.length_append, List.length_cons, monthMap_length hb.1 hb.2] at hlen
      have h3 : (pyS "JUN").length = 3 := rfl
      rw [h3] at hlen
      omega
    · intro hm6
      unfold format_datetime_to_gene
      rw [if_pos (by simp [hm6])]
  · decide

/-- Claim C2 witness: the concrete June input `06/03/1999` classifies to the
June sentinel, and the equivalence holds there. -/
theorem claim2_witness :
    tryConvertToDatetime (.str (pyS "06/03/1999")) = some ⟨2000, 6, 1⟩
  ∧ (format_datetime_to_gene ⟨2000, 6, 1⟩ = pyS "JUN" ↔
      (⟨2000, 6, 1⟩ : CanonicalDate).month = 6) :=
  ⟨by decide, claim2_theorem.1 (pyS "06/03/1999") ⟨2000, 6, 1⟩ (by decide)⟩

/-- Claim C3: running the Sheet Processor a second time on its own output
produces zero further changes — its change log is empty (so the change count
is 0) and the output workbook is unchanged.  Every value a run can produce —
a value classification rejected, a resolved gene symbol, or a formatted code
(`JUN`, or month abbreviation plus zero-padded day) — fails re-classification:
in particular the permissive fallback coerces `MMM-DD` codes to `NaT` (the
day slot gets the parser's default year 1, outside the `Timestamp` range).
The hypothesis asks only that date-typed input cells carry a possible
`datetime` day (at most 31), which every real `datetime` value does. -/
theorem claim3_theorem (wb : List (String × SheetData))
    (hv : ∀ p ∈ wb, (∀ c ∈ p.2.header, validDateCell c = true) ∧
      ∀ row ∈ p.2.rows, ∀ c ∈ row, validDateCell c = true) :
    (scan_and_fix_excel (scan_and_fix_excel wb).1).2 = []
  ∧ (scan_and_fix_excel (scan_and_fix_excel wb).1).1 = (scan_and_fix_excel wb).1 := by
  have hstab : ∀ p ∈ (scan_and_fix_excel wb).1,
      (∀ c ∈ p.2.header, process_cell_value c load_reference_data = (c, false)) ∧
      (∀ row ∈ p.2.rows, ∀ c ∈ row, process_cell_value c load_reference_data = (c, false)) := by
    intro p hp
    have hp' : p ∈ wb.map
        (fun q => (q.1, (processSheet q.1 load_reference_data q.2).1)) := hp
    obtain ⟨q, hq, rfl⟩ := List.mem_map.mp hp'
    constructor
    · intro c hc
      have hc' : c ∈ q.2.header.map
          (fun c => (process_cell_value c load_reference_data).1) := hc
      obtain ⟨c0, hc0, rfl⟩ := List.mem_map.mp hc'
      exact pcv_output_unchanged ((hv q hq).1 c0 hc0)
    · intro row hrow c hc
      have hrow' : row ∈ q.2.rows.map
          (fun r => r.map fun c => (process_cell_value c load_reference_data).1) := hrow
      obtain ⟨r0, hr0, rfl⟩ := List.mem_map.mp hrow'
      obtain ⟨c0, hc0, rfl⟩ := List.mem_map.mp hc
      exact pcv_output_unchanged ((hv q hq).2 r0 hr0 c0 hc0)
  have hsheets : ∀ p ∈ (scan_and_fix_excel wb).1,
      processSheet p.1 load_reference_data p.2 = (p.2, []) :=
    fun p hp => processSheet_id p.1 p.2 (hstab p hp).1 (hstab p hp).2
  constructor
  · show ((scan_and_fix_excel wb).1).flatMap
        (fun p => (processSheet p.1 load_reference_data p.2).2) = []
    apply flatMap_eq_nil_of
    intro p hp
    rw [hsheets p hp]
  · show ((scan_and_fix_excel wb).1).map
        (fun p => (p.1, (processSheet p.1 load_reference_data p.2).1))
      = (scan_and_fix_excel wb).1
    apply map_eq_self
    intro p hp
    rw [hsheets p hp]

/-- Claim C3 witness: a workbook whose only cell is a slash date satisfies
the valid-date hypothesis (it has no date-typed cells); the first run makes
one change (`07/04/2023` becomes `JUL-04`) and the second run makes none. -/
theorem claim3_witness :
    (∀ p ∈ ([("Sheet1", SheetData.mk [Cell.str (pyS "gene")]
          [[Cell.str (pyS "07/04/2023")]])] : List (String × SheetData)),
      (∀ c ∈ p.2.header, validDateCell c = true) ∧
      ∀ row ∈ p.2.rows, ∀ c ∈ row, validDateCell c = true)
  ∧ (scan_and_fix_excel
      [("Sheet1", SheetData.mk [Cell.str (pyS "gene")]
          [[Cell.str (pyS "07/04/2023")]])]).2.length = 1
  ∧ (scan_and_fix_excel (scan_and_fix_excel
      [("Sheet1", SheetData.mk [Cell.str (pyS "gene")]
          [[Cell.str (pyS "07/04/2023")]])]).1).2 = [] :=
  ⟨by decide, by decide,
    (claim3_theorem [("Sheet1", SheetData.mk [Cell.str (pyS "gene")]
        [[Cell.str (pyS "07/04/2023")]])] (by decide)).1⟩

/-- Claim C4: the resolver is an exact-match lookup whose behaviour on every
code equals the map spelled out by the claim (`claimedEntries`, built from
the claim's ranges), with unmapped codes returned unchanged. -/
theorem claim4_theorem :
    ∀ code : PyStr, resolveCode code = (claimedEntries.lookup code).getD code := by
  have h : load_reference_data = claimedEntries := by decide
  intro code
  unfold resolveCode
  rw [h]

/-- Claim C4 witness: instantiation at the anomalous key `SEP-13`. -/
theorem claim4_witness :
    resolveCode (pyS "SEP-13") = (claimedEntries.lookup (pyS "SEP-13")).getD (pyS "SEP-13") :=
  claim4_theorem (pyS "SEP-13")

/-- Claim C5: the output workbook has the same sheet names in the same order
as the input; every output sheet has the same header length, the same row
count and the same per-row cell count as its input sheet; and every header or
cell value whose classification fails appears unchanged in the output. -/
theorem claim5_theorem (wb : List (String × SheetData)) :
    (scan_and_fix_excel wb).1.map Prod.fst = wb.map Prod.fst
  ∧ List.Forall₂ (fun p q =>
      q.2.header.length = p.2.header.length ∧
      q.2.rows.length = p.2.rows.length ∧
      List.Forall₂ (fun r r' =>
        r'.length = r.length ∧
        List.Forall₂ (fun c c' => tryConvertToDatetime c = none → c' = c) r r')
        p.2.rows q.2.rows ∧
      List.Forall₂ (fun c c' => tryConvertToDatetime c = none → c' = c)
        p.2.header q.2.header)
      wb (scan_and_fix_excel wb).1 := by
  have hscan : (scan_and_fix_excel wb).1 =
      wb.map (fun p => (p.1, (processSheet p.1 load_reference_data p.2).1)) := rfl
  constructor
  · rw [hscan, List.map_map]
    rfl
  · rw [hscan]
    apply forall2_map_self
    intro p hp
    refine ⟨List.length_map _ _, List.length_map _ _, ?_, ?_⟩
    · show List.Forall₂ _ p.2.rows
        (p.2.rows.map (fun row => row.map (fun c => (process_cell_value c load_reference_data).1)))
      apply forall2_map_self
      intro r hr
      refine ⟨List.length_map _ _, ?_⟩
      apply forall2_map_self
      intro c hc hnone
      exact cell_unchanged_of_none hnone
    · show List.Forall₂ _ p.2.header
        (p.2.header.map (fun c => (process_cell_value c load_reference_data).1))
      apply forall2_map_self
      intro c hc hnone
      exact cell_unchanged_of_none hnone

/-- Claim C5 witness: instantiation at a one-sheet, one-cell workbook. -/
theorem claim5_witness :
    (scan_and_fix_excel [("S", SheetData.mk [Cell.str (pyS "a")] [[Cell.num]])]).1.map Prod.fst
      = [("S", SheetData.mk [Cell.str (pyS "a")] [[Cell.num]])].map Prod.fst :=
  (claim5_theorem [("S", SheetData.mk [Cell.str (pyS "a")] [[Cell.num]])]).1

/-- Claim C6: native numbers (and `NaN`-like missing values) classify as
not-a-date, and so does every string accepted by `float()` — including the
zero-valued strings `0` and `0.0`, which slip past the truthiness test of
line 49 but are caught by the numeric-looking guard, and the float spellings
`1e5` and `nan`. -/
theorem claim6_theorem :
    tryConvertToDatetime Cell.num = none
  ∧ tryConvertToDatetime Cell.na = none
  ∧ (∀ s : PyStr, (pyFloatParse s).isSome = true → tryConvertToDatetime (.str s) = none)
  ∧ tryConvertToDatetime (.str (pyS "0")) = none
  ∧ tryConvertToDatetime (.str (pyS "0.0")) = none
  ∧ tryConvertToDatetime (.str (pyS "1e5")) = none
  ∧ tryConvertToDatetime (.str (pyS "nan")) = none :=
  ⟨rfl, rfl, fun _ h => tryConvert_none_of_floatParse_isSome h,
    by decide, by decide, by decide, by decide⟩

/-- Claim C6 witness: `0.0` parses as a float, and classifies as not-a-date. -/
theorem claim6_witness :
    (pyFloatParse (pyS "0.0")).isSome = true
  ∧ tryConvertToDatetime (.str (pyS "0.0")) = none :=
  ⟨by decide, claim6_theorem.2.2.1 (pyS "0.0") (by decide)⟩

/-- Claim C7: every string whose stripped form starts, case-insensitively,
with `ST` classifies as not-a-date and passes through unchanged; the spec's
guard examples `ST6GAL1`, `12345` and `3.14` all classify as not-a-date and
remain unchanged (the latter two through the float test rather than the `ST`
test). -/
theorem claim7_theorem :
    (∀ s : PyStr, pyStartsWithST (pyStrip s) = true →
      tryConvertToDatetime (.str s) = none ∧
      process_cell_value (.str s) load_reference_data = (.str s, false))
  ∧ (tryConvertToDatetime (.str (pyS "ST6GAL1")) = none ∧
      process_cell_value (.str (pyS "ST6GAL1")) load_reference_data
        = (.str (pyS "ST6GAL1"), false))
  ∧ (tryConvertToDatetime (.str (pyS "12345")) = none ∧
      process_cell_value (.str (pyS "12345")) load_reference_data
        = (.str (pyS "12345"), false))
  ∧ (tryConvertToDatetime (.str (pyS "3.14")) = none ∧
      process_cell_value (.str (pyS "3.14")) load_reference_data
        = (.str (pyS "3.14"), false)) := by
  refine ⟨?_, ⟨by decide, by decide⟩, ⟨by decide, by decide⟩, ⟨by decide, by decide⟩⟩
  intro s hst
  have hnone : tryConvertToDatetime (.str s) = none := by
    cases hf : pyFloatParse s with
    | some bv =>
      cases bv with
      | true => exact tryConvertWF_str_float_true hf
      | false =>
        rw [tryConvertToDatetime, tryConvertWF_str_main (Or.inl hf), if_pos (by simp [hst])]
    | none =>
      rw [tryConvertToDatetime, tryConvertWF_str_main (Or.inr hf), if_pos (by simp [hst])]
  exact ⟨hnone, process_cell_value_of_none hnone⟩

/-- Claim C7 witness: `ST6GAL1` satisfies the `ST`-prefix hypothesis and is
rejected and passed through. -/
theorem claim7_witness :
    pyStartsWithST (pyStrip (pyS "ST6GAL1")) = true
  ∧ tryConvertToDatetime (.str (pyS "ST6GAL1")) = none
  ∧ process_cell_value (.str (pyS "ST6GAL1")) load_reference_data
      = (.str (pyS "ST6GAL1"), false) :=
  ⟨by decide, (claim7_theorem.1 (pyS "ST6GAL1") (by decide)).1,
    (claim7_theorem.1 (pyS "ST6GAL1") (by decide)).2⟩

/-- Claim C8: classification never propagates an exception — the
exception-explicit rendering of `try_convert_to_datetime`, in which `float()`
and every template parse may raise and each `try`/`except` of the source is
modelled, returns `.ok` on every input, with the same value the pure
classifier computes. -/
theorem claim8_theorem :
    ∀ x : Cell, tryConvertToDatetimeE x = .ok (tryConvertToDatetime x) :=
  tryConvertToDatetimeE_agrees

/-- Claim C8 witness: instantiation at a string that exercises the template
loop and the fallback. -/
theorem claim8_witness :
    tryConvertToDatetimeE (.str (pyS "JUL-04"))
      = .ok (tryConvertToDatetime (.str (pyS "JUL-04"))) :=
  claim8_theorem (.str (pyS "JUL-04"))

/-- Claim C9: the two dash-separated explicit templates are dead code inside
classification — any string either dash template parses is all digits once
`'.'` and `'-'` are stripped, so the numeric-looking guard already rejected
it — and consequently the classifier behaves identically with the dash
templates removed: a string can only be classified through the two slash
templates or the permissive fallback. -/
theorem claim9_theorem :
    (∀ (x : PyStr) (d : CanonicalDate), pyStrptime3 '-' .ymd x = some d →
      pyIsdigit (stripDotsDashes x) = true)
  ∧ (∀ (x : PyStr) (d : CanonicalDate), pyStrptime3 '-' .dmy x = some d →
      pyIsdigit (stripDotsDashes x) = true)
  ∧ (∀ c : Cell, tryConvertToDatetime c = tryConvertSlashOnly c) := by
  refine ⟨fun x d h => pyStrptime3_guard h, fun x d h => pyStrptime3_guard h, ?_⟩
  intro c
  cases c with
  | date d => rfl
  | num => rfl
  | na => rfl
  | str s =>
    have main : pyFloatParse s = some false ∨ pyFloatParse s = none →
        tryConvertWithFormats pythonFormats (.str s) =
          tryConvertWithFormats slashFormats (.str s) := by
      intro hor
      rw [tryConvertWF_str_main hor, tryConvertWF_str_main hor]
      by_cases h1 : pyStartsWithST (pyStrip s) = true
      · rw [if_pos h1, if_pos h1]
      · rw [if_neg h1, if_neg h1]
        by_cases h2 : pyIsdigit (stripDotsDashes (pyStrip s)) = true
        · rw [if_pos h2, if_pos h2]
        · rw [if_neg h2, if_neg h2]
          have hg : pyIsdigit (stripDotsDashes (pyStrip s)) = false := by
            cases hA : pyIsdigit (stripDotsDashes (pyStrip s)) with
            | false => rfl
            | true => exact absurd hA h2
          rw [tryFormats_python_eq_slash hg]
    cases hf : pyFloatParse s with
    | some bv =>
      cases bv with
      | true =>
        show tryConvertWithFormats pythonFormats (.str s) =
          tryConvertWithFormats slashFormats (.str s)
        rw [tryConvertWF_str_float_true hf, tryConvertWF_str_float_true hf]
      | false => exact main (Or.inl hf)
    | none => exact main (Or.inr hf)

/-- Claim C9 witness: concrete strings each dash template does parse (showing
the hypothesis satisfiable), whose stripped forms the guard flags as numeric. -/
theorem claim9_witness :
    pyStrptime3 '-' .ymd (pyS "2023-03-01") = some ⟨2023, 3, 1⟩
  ∧ pyIsdigit (stripDotsDashes (pyS "2023-03-01")) = true
  ∧ pyStrptime3 '-' .dmy (pyS "01-03-2023") = some ⟨2023, 3, 1⟩
  ∧ pyIsdigit (stripDotsDashes (pyS "01-03-2023")) = true :=
  ⟨by decide, claim9_theorem.1 (pyS "2023-03-01") ⟨2023, 3, 1⟩ (by decide),
    by decide, claim9_theorem.2.1 (pyS "01-03-2023") ⟨2023, 3, 1⟩ (by decide)⟩

/-- Claim C10, as stated, is false on the code in its exemplars: a cell that
already contains `JUN` (or an unmapped code such as `JUL-04`) is not
re-classified at all — the permissive fallback coerces it to `NaT` — so no
change is recorded for it and the change count of a sheet holding it is 0,
not a count that includes a no-op rewrite. -/
theorem claim10_counterexample :
    tryConvertToDatetime (.str (pyS "JUN")) = none
  ∧ tryConvertToDatetime (.str (pyS "JUL-04")) = none
  ∧ (scan_and_fix_excel
      [("S", SheetData.mk [Cell.str (pyS "id")] [[Cell.str (pyS "JUN")]])]).2.length = 0 := by
  refine ⟨by decide, by decide, by decide⟩

/-- Claim C10 amended: whenever classification of a cell or header value
succeeds, the processor reports it as changed — the new value is the resolved
formatted code and the flag is true — whether or not the replacement differs
textually from the original; but a cell already containing `JUN` or an
unmapped formatted code never classifies (the fallback coerces it to `NaT`),
so it passes through unchanged and recorded no-op rewrites do not occur. -/
theorem claim10_theorem :
    (∀ (v : Cell) (dt : CanonicalDate), tryConvertToDatetime v = some dt →
      process_cell_value v load_reference_data
        = (.str (resolveCode (format_datetime_to_gene dt)), true))
  ∧ process_cell_value (.str (pyS "JUN")) load_reference_data = (.str (pyS "JUN"), false)
  ∧ process_cell_value (.str (pyS "JUL-04")) load_reference_data
      = (.str (pyS "JUL-04"), false)
  ∧ processSheet "S" load_reference_data
      ⟨[.str (pyS "id")], [[.str (pyS "JUN")]]⟩
    = (⟨[.str (pyS "id")], [[.str (pyS "JUN")]]⟩, []) := by
  refine ⟨?_, by decide, by decide, by decide⟩
  intro v dt h
  exact process_cell_value_of_some h

/-- Claim C10 witness: `03/01/2023` classifies, and the processed cell is the
resolved formatted code with the changed flag set. -/
theorem claim10_witness :
    tryConvertToDatetime (.str (pyS "03/01/2023")) = some ⟨2023, 3, 1⟩
  ∧ process_cell_value (.str (pyS "03/01/2023")) load_reference_data
      = (.str (resolveCode (format_datetime_to_gene ⟨2023, 3, 1⟩)), true) :=
  ⟨by decide, claim10_theorem.1 (.str (pyS "03/01/2023")) ⟨2023, 3, 1⟩ (by decide)⟩
